import Mathlib

/-!
Verification of the Raumschiff 3D demo (two C++ variants, `main.cpp` and
`src/main.cpp`) against its natural-language specification.

The development shallowly embeds the parts of the program the claims are
about: the OBJ mesh-ingestion loop, the screen-state machine and per-frame
input/lore-reveal logic of the final variant, the per-frame model/view
matrix construction, the startup exit-code logic, and the sequence of
GPU geometry-buffer upload calls.  `float` values are modelled as exact
rationals.
-/

namespace Raumschiff

/-! ## Mesh importer (the ingestion loop in `main`)

Mirrors the loop that walks `shapes[s].mesh.num_face_vertices` /
`shapes[s].mesh.indices` and the `attrib` arrays of tinyobjloader,
appending six floats (position + normal) and one sequential index per
face corner.  Both variants contain the identical loop. -/

/-- tinyobj `index_t`: per-corner vertex/normal indices (may be negative). -/
structure ObjIndex where
  vertex_index : Int
  normal_index : Int
  deriving DecidableEq

/-- tinyobj `shape_t::mesh`: per-face corner counts and the flat corner list. -/
structure Shape where
  num_face_vertices : List Nat
  indices : List ObjIndex
  deriving DecidableEq

/-- tinyobj `attrib_t`: flat position and normal float arrays. -/
structure Attrib where
  vertices : List ℚ
  normals : List ℚ
  deriving DecidableEq

/-- The `vertices` / `indices` vectors built by the ingestion loop. -/
structure MeshBuffers where
  vertices : List ℚ
  indices : List Nat
  deriving DecidableEq

def emptyBuffers : MeshBuffers := ⟨[], []⟩

/-- Read of a vector element at a (possibly signed) index; out-of-range
reads default to `0` (the C++ would be undefined there; accepted assets
stay in range). -/
def vget (l : List ℚ) (i : Int) : ℚ :=
  if 0 ≤ i then l.getD i.toNat 0 else 0

/-- The six floats appended for one face corner: position `vx vy vz` from
`attrib.vertices`, then the normal, which is `0,0,0` unless
`idx.normal_index >= 0`, in which case it is read from `attrib.normals`. -/
def cornerFloats (a : Attrib) (idx : ObjIndex) : List ℚ :=
  let vx := vget a.vertices (3 * idx.vertex_index + 0)
  let vy := vget a.vertices (3 * idx.vertex_index + 1)
  let vz := vget a.vertices (3 * idx.vertex_index + 2)
  let nx := if 0 ≤ idx.normal_index then vget a.normals (3 * idx.normal_index + 0) else 0
  let ny := if 0 ≤ idx.normal_index then vget a.normals (3 * idx.normal_index + 1) else 0
  let nz := if 0 ≤ idx.normal_index then vget a.normals (3 * idx.normal_index + 2) else 0
  [vx, vy, vz, nx, ny, nz]

/-- Body of the innermost loop: push the six floats, then
`indices.push_back(indices.size())`. -/
def processCorner (a : Attrib) (b : MeshBuffers) (idx : ObjIndex) : MeshBuffers :=
  ⟨b.vertices ++ cornerFloats a idx, b.indices ++ [b.indices.length]⟩

/-- The `for (v = 0; v < fv; v++)` loop over one face, reading
`shapes[s].mesh.indices[index_offset + v]`. -/
def processFace (a : Attrib) (ind : List ObjIndex) (off fv : Nat) (b : MeshBuffers) :
    MeshBuffers :=
  (List.range fv).foldl (fun b v => processCorner a b (ind.getD (off + v) ⟨0, -1⟩)) b

/-- The per-shape loop over `num_face_vertices`, threading `index_offset`
(`index_offset += fv` after each face). -/
def processShape (a : Attrib) (b : MeshBuffers) (sh : Shape) : MeshBuffers :=
  (sh.num_face_vertices.foldl
    (fun (acc : MeshBuffers × Nat) fv =>
      (processFace a sh.indices acc.2 fv acc.1, acc.2 + fv))
    (b, 0)).1

/-- The whole ingestion loop over all shapes, starting from empty vectors. -/
def buildMesh (a : Attrib) (shapes : List Shape) : MeshBuffers :=
  shapes.foldl (processShape a) emptyBuffers

/-- Total face count `F` of an asset. -/
def totalFaces (shapes : List Shape) : Nat :=
  (shapes.map (fun sh => sh.num_face_vertices.length)).sum

/-- Total corner count of an asset (sum of all `fv`). -/
def totalCorners (shapes : List Shape) : Nat :=
  (shapes.map (fun sh => sh.num_face_vertices.sum)).sum

/-- Loop invariant: the index vector is exactly `0, 1, ..., n-1` and the
vertex vector holds six floats per index. -/
def goodBuffers (b : MeshBuffers) : Prop :=
  b.indices = List.range b.indices.length ∧
  b.vertices.length = 6 * b.indices.length

/-- The spec's end-to-end scenario: a 2-triangle quad asset with 4 distinct
source vertices, 2 triangulated faces and no normals (`normal_index = -1`). -/
def quadAttrib : Attrib :=
  ⟨[0, 0, 0, 1, 0, 0, 1, 1, 0, 0, 1, 0], []⟩

def quadShapes : List Shape :=
  [⟨[3, 3], [⟨0, -1⟩, ⟨1, -1⟩, ⟨2, -1⟩, ⟨0, -1⟩, ⟨2, -1⟩, ⟨3, -1⟩]⟩]

/-! ## Screen state machine, input and per-frame state (final variant)

Mirrors the globals `gameState`, `modelPosition`, `rotationY`, the lore
statics `loreLoaded` / `charIndex` / `timeAccumulator`, the functions
`handleInput` and `processInput`, and the state effects of one iteration
of the main loop. -/

/-- The `GameState` enum. -/
inductive GameState where
  | Start_Screen
  | Lore_Screen
  | Game_Screen
  | End_screen
  deriving DecidableEq

/-- One snapshot of the GLFW key states the program reads. -/
structure Keys where
  escape : Bool
  upKey : Bool
  downKey : Bool
  leftKey : Bool
  rightKey : Bool
  enter : Bool
  deriving DecidableEq

def noKeys : Keys := ⟨false, false, false, false, false, false⟩

def enterKeys : Keys := { noKeys with enter := true }

/-- Model of `glm::vec3` with exact rational components. -/
structure Vec3 where
  x : ℚ
  y : ℚ
  z : ℚ
  deriving DecidableEq

/-- The constant `float movementSpeed = 0.05f`. -/
def movementSpeed : ℚ := 1 / 20

/-- The constant `float charDisplayInterval = 0.05f`. -/
def charDisplayInterval : ℚ := 1 / 20

/-- The mutable program state touched by one frame of the final variant:
the globals plus the `static` locals of the Lore branch. -/
structure World where
  gameState : GameState
  modelPosition : Vec3
  rotationY : ℚ
  windowShouldClose : Bool
  loreLoaded : Bool
  charIndex : Nat
  timeAccumulator : ℚ
  deriving DecidableEq

/-- Initial state: `gameState = Lore_Screen`, `modelPosition = (0,0,0)`,
`rotationY = 0`, lore not yet loaded, nothing revealed. -/
def initWorld : World :=
  ⟨GameState.Lore_Screen, ⟨0, 0, 0⟩, 0, false, false, 0, 0⟩

/-- The function `handleInput`: on an Enter press set `gameState = Game_Screen`.
Defined in the source but never called from the main loop. -/
def handleInput (k : Keys) (gs : GameState) : GameState :=
  if k.enter then GameState.Game_Screen else gs

/-- The function `processInput`: ESC requests close; UP/DOWN move `modelPosition.x` by
∓`movementSpeed`; LEFT/RIGHT move `modelPosition.z` by ±`movementSpeed`.
It reads neither Enter nor `gameState` and never writes `rotationY`. -/
def processInput (k : Keys) (w : World) : World :=
  let w := if k.escape then { w with windowShouldClose := true } else w
  let w := if k.upKey then
    { w with modelPosition := { w.modelPosition with x := w.modelPosition.x - movementSpeed } }
    else w
  let w := if k.downKey then
    { w with modelPosition := { w.modelPosition with x := w.modelPosition.x + movementSpeed } }
    else w
  let w := if k.leftKey then
    { w with modelPosition := { w.modelPosition with z := w.modelPosition.z + movementSpeed } }
    else w
  let w := if k.rightKey then
    { w with modelPosition := { w.modelPosition with z := w.modelPosition.z - movementSpeed } }
    else w
  w

/-- The state effects of the render part of one main-loop iteration.
Only the Lore branch mutates state: it loads the lore text once (a missing
file requests close and breaks out), accumulates the frame's elapsed time,
and reveals at most one further character when the accumulator reaches
`charDisplayInterval`, resetting the accumulator to zero. -/
def renderPhase (elapsed : ℚ) (loreFileOk : Bool) (loreLen : Nat) (w : World) : World :=
  if w.gameState = GameState.Lore_Screen then
    if w.loreLoaded = false ∧ loreFileOk = false then
      { w with windowShouldClose := true }
    else
      let w1 := { w with loreLoaded := true }
      let acc := w1.timeAccumulator + elapsed
      if charDisplayInterval ≤ acc ∧ w1.charIndex < loreLen then
        { w1 with charIndex := w1.charIndex + 1, timeAccumulator := 0 }
      else
        { w1 with timeAccumulator := acc }
  else w

/-- Per-frame external inputs: key snapshot, elapsed time reported by
`glfwGetTime()`, and whether the lore text file opens. -/
structure FrameIn where
  keys : Keys
  elapsed : ℚ
  loreFileOk : Bool
  deriving DecidableEq

/-- One main-loop iteration: `processInput`, then the active screen's
state effects.  `loreLen` is the length of the lore text on disk. -/
def frame (loreLen : Nat) (i : FrameIn) (w : World) : World :=
  renderPhase i.elapsed i.loreFileOk loreLen (processInput i.keys w)

/-- A run of the main loop over a list of per-frame inputs. -/
def run (loreLen : Nat) (inputs : List FrameIn) (w : World) : World :=
  inputs.foldl (fun w i => frame loreLen i w) w

/-- Total elapsed time of a run. -/
def totalElapsed (inputs : List FrameIn) : ℚ :=
  (inputs.map (fun i => i.elapsed)).sum

/-- A frame with no keys held whose elapsed time is exactly the
per-character interval, the cadence at which the reveal logic matches the
spec's formula. -/
def cadenceFrame : FrameIn := ⟨noKeys, charDisplayInterval, true⟩

/-! ## Transform pipeline (Game-screen matrices, final variant)

`glm` post-multiplies: `glm::rotate(M, a, axis) = M * R(a, axis)` and
`glm::translate(M, v) = M * T(v)`, acting on column vectors.  The code
builds `model = rotate(translate(rotate(I, radians(90°), X), pos), yaw, Z)`.
Angles enter only through their cosine/sine, passed here as exact
rationals; `cos 90° = 0`, `sin 90° = 1`. -/

abbrev M4 := Matrix (Fin 4) (Fin 4) ℚ

/-- Rotation about the X axis with cosine `c` and sine `s`. -/
def rotXmat (c s : ℚ) : M4 :=
  !![1, 0, 0, 0; 0, c, -s, 0; 0, s, c, 0; 0, 0, 0, 1]

/-- Rotation about the Z axis with cosine `c` and sine `s`. -/
def rotZmat (c s : ℚ) : M4 :=
  !![c, -s, 0, 0; s, c, 0, 0; 0, 0, 1, 0; 0, 0, 0, 1]

/-- The fixed `glm::rotate(·, glm::radians(90.0f), vec3(1,0,0))` rotation. -/
def rotX90 : M4 := rotXmat 0 1

/-- Translation matrix appended by `glm::translate`. -/
def translateMat (v : Vec3) : M4 :=
  !![1, 0, 0, v.x; 0, 1, 0, v.y; 0, 0, 1, v.z; 0, 0, 0, 1]

def glmRotate (m r : M4) : M4 := m * r

def glmTranslate (m : M4) (v : Vec3) : M4 := m * translateMat v

/-- The per-frame Model matrix: identity, then the fixed +90° X rotation,
then translation by `modelPosition`, then the yaw rotation about the local
Z axis (cosine `c`, sine `s` of `rotationY`). -/
def modelMatrix (pos : Vec3) (c s : ℚ) : M4 :=
  glmRotate (glmTranslate (glmRotate 1 rotX90) pos) (rotZmat c s)

/-- The constant `cameraOffset = glm::vec3(30.0f, 30.0f, 30.0f)`. -/
def cameraOffset : Vec3 := ⟨30, 30, 30⟩

/-- The three arguments the code passes to `glm::lookAt` each Game frame. -/
structure LookAtArgs where
  eye : Vec3
  center : Vec3
  upv : Vec3
  deriving DecidableEq

/-- The View matrix's `lookAt` call: `cameraPos = cameraOffset`,
`target = modelPosition`, `up = (0, 0, 1)`. -/
def viewArgs (modelPosition : Vec3) : LookAtArgs :=
  { eye := cameraOffset, center := modelPosition, upv := ⟨0, 0, 1⟩ }

/-! ## Startup exit codes

`main` returns −1 at each failed startup step (GLFW init, window
creation, GLEW init, OBJ load) and 0 after the loop exits on
window-close; teardown is unconditional. -/

structure StartupEnv where
  glfwInitOk : Bool
  windowOk : Bool
  glewInitOk : Bool
  objLoadOk : Bool
  deriving DecidableEq

/-- The process exit code of `main` as a function of which startup steps
succeed. -/
def mainExitCode (env : StartupEnv) : Int :=
  if env.glfwInitOk = false then -1
  else if env.windowOk = false then -1
  else if env.glewInitOk = false then -1
  else if env.objLoadOk = false then -1
  else 0

/-! ## GPU geometry-buffer upload trace

The setup code issues one `glBufferData` per geometry buffer (mesh VBO,
mesh EBO, axes VBO, screen-quad VBO).  Per frame, the Lore branch issues
one `glBufferSubData` on the screen-quad VBO per glyph drawn; no other
branch uploads buffer data. -/

inductive BufferId where
  | meshVBO
  | meshEBO
  | axesVBO
  | quadVBO
  deriving DecidableEq

inductive UploadKind where
  | bufferData
  | bufferSubData
  deriving DecidableEq

structure UploadEvent where
  buf : BufferId
  kind : UploadKind
  deriving DecidableEq

/-- The four creation-time `glBufferData` calls, in program order. -/
def setupUploads : List UploadEvent :=
  [⟨BufferId.meshVBO, UploadKind.bufferData⟩,
   ⟨BufferId.meshEBO, UploadKind.bufferData⟩,
   ⟨BufferId.axesVBO, UploadKind.bufferData⟩,
   ⟨BufferId.quadVBO, UploadKind.bufferData⟩]

/-- The buffer uploads one frame issues: the Lore branch overwrites the
screen-quad VBO once per glyph of the displayed text via
`glBufferSubData`; Start, Game and End issue none. -/
def frameUploads (gs : GameState) (glyphsDrawn : Nat) : List UploadEvent :=
  match gs with
  | GameState.Lore_Screen =>
      List.replicate glyphsDrawn ⟨BufferId.quadVBO, UploadKind.bufferSubData⟩
  | _ => []

/-- The upload trace of a whole run: setup, then each frame's uploads. -/
def runUploads (frames : List (GameState × Nat)) : List UploadEvent :=
  setupUploads ++ frames.flatMap (fun p => frameUploads p.1 p.2)

/-- Number of upload calls in a trace that target buffer `b`. -/
def uploadsTo (b : BufferId) (l : List UploadEvent) : Nat :=
  (l.filter (fun e => decide (e.buf = b))).length

end Raumschiff

namespace Raumschiff

/-! ### Importer lemmas -/

theorem cornerFloats_length (a : Attrib) (idx : ObjIndex) :
    (cornerFloats a idx).length = 6 := rfl

theorem goodBuffers_empty : goodBuffers emptyBuffers := by
  constructor <;> rfl

theorem goodBuffers_processCorner (a : Attrib) (b : MeshBuffers) (idx : ObjIndex)
    (h : goodBuffers b) : goodBuffers (processCorner a b idx) := by
  obtain ⟨hi, hv⟩ := h
  constructor
  · simp only [processCorner, List.length_append, List.length_singleton]
    rw [List.range_succ]
    exact congrArg (· ++ [b.indices.length]) hi
  · simp only [processCorner, List.length_append, List.length_singleton,
      cornerFloats_length, hv]
    ring

theorem processCorner_indices_length (a : Attrib) (b : MeshBuffers) (idx : ObjIndex) :
    (processCorner a b idx).indices.length = b.indices.length + 1 := by
  simp [processCorner]

theorem goodBuffers_foldCorners (a : Attrib) (cs : List ObjIndex) (b : MeshBuffers)
    (h : goodBuffers b) :
    goodBuffers (cs.foldl (processCorner a) b) ∧
      (cs.foldl (processCorner a) b).indices.length = b.indices.length + cs.length := by
  induction cs generalizing b with
  | nil => simpa using h
  | cons c cs ih =>
      have h' := goodBuffers_processCorner a b c h
      obtain ⟨g, len⟩ := ih (processCorner a b c) h'
      refine ⟨g, ?_⟩
      rw [List.foldl_cons] at *
      rw [len, processCorner_indices_length]
      simp [List.length_cons]
      ring

theorem processFace_eq_foldCorners (a : Attrib) (ind : List ObjIndex) (off fv : Nat)
    (b : MeshBuffers) :
    processFace a ind off fv b =
      (((List.range fv).map (fun v => ind.getD (off + v) ⟨0, -1⟩)).foldl
        (processCorner a) b) := by
  rw [processFace, List.foldl_map]

theorem goodBuffers_processFace (a : Attrib) (ind : List ObjIndex) (off fv : Nat)
    (b : MeshBuffers) (h : goodBuffers b) :
    goodBuffers (processFace a ind off fv b) ∧
      (processFace a ind off fv b).indices.length = b.indices.length + fv := by
  rw [processFace_eq_foldCorners]
  have := goodBuffers_foldCorners a
    ((List.range fv).map (fun v => ind.getD (off + v) ⟨0, -1⟩)) b h
  simpa using this

theorem goodBuffers_facesFold (a : Attrib) (ind : List ObjIndex) (fvs : List Nat)
    (p : MeshBuffers × Nat) (h : goodBuffers p.1) :
    goodBuffers (fvs.foldl
        (fun (acc : MeshBuffers × Nat) fv =>
          (processFace a ind acc.2 fv acc.1, acc.2 + fv)) p).1 ∧
      (fvs.foldl
        (fun (acc : MeshBuffers × Nat) fv =>
          (processFace a ind acc.2 fv acc.1, acc.2 + fv)) p).1.indices.length =
        p.1.indices.length + fvs.sum := by
  induction fvs generalizing p with
  | nil => simpa using h
  | cons fv fvs ih =>
      obtain ⟨g, len⟩ := goodBuffers_processFace a ind p.2 fv p.1 h
      obtain ⟨g', len'⟩ := ih (processFace a ind p.2 fv p.1, p.2 + fv) g
      refine ⟨g', ?_⟩
      rw [List.foldl_cons] at *
      rw [len', len, List.sum_cons]
      ring

theorem goodBuffers_processShape (a : Attrib) (b : MeshBuffers) (sh : Shape)
    (h : goodBuffers b) :
    goodBuffers (processShape a b sh) ∧
      (processShape a b sh).indices.length =
        b.indices.length + sh.num_face_vertices.sum := by
  have := goodBuffers_facesFold a sh.indices sh.num_face_vertices (b, 0) h
  simpa [processShape] using this

theorem goodBuffers_buildFold (a : Attrib) (shapes : List Shape) (b : MeshBuffers)
    (h : goodBuffers b) :
    goodBuffers (shapes.foldl (processShape a) b) ∧
      (shapes.foldl (processShape a) b).indices.length =
        b.indices.length + totalCorners shapes := by
  induction shapes generalizing b with
  | nil => simpa [totalCorners] using h
  | cons sh shapes ih =>
      obtain ⟨g, len⟩ := goodBuffers_processShape a b sh h
      obtain ⟨g', len'⟩ := ih (processShape a b sh) g
      refine ⟨g', ?_⟩
      rw [List.foldl_cons] at *
      rw [len', len]
      simp [totalCorners]
      ring

theorem goodBuffers_buildMesh (a : Attrib) (shapes : List Shape) :
    goodBuffers (buildMesh a shapes) ∧
      (buildMesh a shapes).indices.length = totalCorners shapes := by
  have := goodBuffers_buildFold a shapes emptyBuffers goodBuffers_empty
  simpa [buildMesh, emptyBuffers] using this

theorem sum_eq_three_mul_length (fvs : List Nat) (h : ∀ fv ∈ fvs, fv = 3) :
    fvs.sum = 3 * fvs.length := by
  induction fvs with
  | nil => simp
  | cons fv fvs ih =>
      have h1 : fv = 3 := h fv (List.mem_cons_self fv fvs)
      have h2 := ih (fun x hx => h x (List.mem_cons_of_mem fv hx))
      simp [h1, h2, List.length_cons]
      ring

theorem totalCorners_eq_three_totalFaces (shapes : List Shape)
    (h : ∀ sh ∈ shapes, ∀ fv ∈ sh.num_face_vertices, fv = 3) :
    totalCorners shapes = 3 * totalFaces shapes := by
  induction shapes with
  | nil => simp [totalCorners, totalFaces]
  | cons sh shapes ih =>
      have h1 := sum_eq_three_mul_length sh.num_face_vertices
        (h sh (List.mem_cons_self sh shapes))
      have h2 := ih (fun s hs => h s (List.mem_cons_of_mem sh hs))
      simp [totalCorners, totalFaces] at *
      rw [h1, h2]
      ring

/-! ### Claim theorems: importer -/

/-- Claim C1: for every OBJ asset made of `F` triangulated faces, the
mesh-ingestion loop produces exactly `3F` interleaved vertex records
(`6 * 3F` floats) and exactly `3F` indices, and the index sequence is
exactly `0, 1, ..., 3F - 1`. -/
theorem importer_counts (a : Attrib) (shapes : List Shape)
    (htri : ∀ sh ∈ shapes, ∀ fv ∈ sh.num_face_vertices, fv = 3) :
    (buildMesh a shapes).indices = List.range (3 * totalFaces shapes) ∧
    (buildMesh a shapes).vertices.length = 6 * (3 * totalFaces shapes) := by
  obtain ⟨⟨hidx, hv⟩, hlen⟩ := goodBuffers_buildMesh a shapes
  have hcount : (buildMesh a shapes).indices.length = 3 * totalFaces shapes := by
    rw [hlen, totalCorners_eq_three_totalFaces shapes htri]
  constructor
  · rw [hidx, hcount]
  · rw [hv, hcount]

/-- Witness for C1 at the spec's 2-triangle quad asset (4 distinct source
vertices, 2 faces, no normals): 6 vertex records, index sequence
`[0, 1, 2, 3, 4, 5]`. -/
theorem importer_counts_witness :
    (buildMesh quadAttrib quadShapes).indices = List.range (3 * totalFaces quadShapes) ∧
    (buildMesh quadAttrib quadShapes).vertices.length = 6 * (3 * totalFaces quadShapes) :=
  importer_counts quadAttrib quadShapes (by decide)

/-- Claim C6: each emitted vertex record is the position followed by the
normal; a corner with negative `normal_index` carries exactly the zero
normal `(0, 0, 0)`, and a corner with non-negative `normal_index` carries
the referenced normal from the attribute array. -/
theorem normal_substitution (a : Attrib) (idx : ObjIndex) :
    (∀ b, (processCorner a b idx).vertices = b.vertices ++ cornerFloats a idx) ∧
    (idx.normal_index < 0 → (cornerFloats a idx).drop 3 = [0, 0, 0]) ∧
    (0 ≤ idx.normal_index →
      (cornerFloats a idx).drop 3 =
        [vget a.normals (3 * idx.normal_index + 0),
         vget a.normals (3 * idx.normal_index + 1),
         vget a.normals (3 * idx.normal_index + 2)]) := by
  refine ⟨fun b => rfl, fun h => ?_, fun h => ?_⟩
  · simp [cornerFloats, not_le.mpr h]
  · simp [cornerFloats, h]

/-- Witness for C6: a corner of the quad asset (normal index −1) yields
the zero normal. -/
theorem normal_substitution_witness :
    (cornerFloats quadAttrib ⟨0, -1⟩).drop 3 = [0, 0, 0] :=
  (normal_substitution quadAttrib ⟨0, -1⟩).2.1 (by decide)

/-- Claim C7: at every point during and after the mesh-ingestion loop —
i.e. after any sequence of corner steps from the empty buffers, and in
particular after the whole loop — every value stored in the index array
is strictly less than the vertex-buffer length divided by the six floats
per vertex. -/
theorem index_in_bounds :
    (∀ (a : Attrib) (cs : List ObjIndex) (i : Nat),
        i ∈ (cs.foldl (processCorner a) emptyBuffers).indices →
        i < (cs.foldl (processCorner a) emptyBuffers).vertices.length / 6) ∧
    (∀ (a : Attrib) (shapes : List Shape) (i : Nat),
        i ∈ (buildMesh a shapes).indices →
        i < (buildMesh a shapes).vertices.length / 6) := by
  have key : ∀ b : MeshBuffers, goodBuffers b →
      ∀ i ∈ b.indices, i < b.vertices.length / 6 := by
    intro b hb i hi
    obtain ⟨hidx, hv⟩ := hb
    rw [hidx] at hi
    rw [hv, Nat.mul_div_cancel_left _ (by norm_num : 0 < 6)]
    exact List.mem_range.mp hi
  constructor
  · intro a cs i hi
    exact key _ (goodBuffers_foldCorners a cs emptyBuffers goodBuffers_empty).1 i hi
  · intro a shapes i hi
    exact key _ (goodBuffers_buildMesh a shapes).1 i hi

/-- Witness for C7 at the quad asset: index 5 is stored and
`5 < 36 / 6`. -/
theorem index_in_bounds_witness :
    5 < (buildMesh quadAttrib quadShapes).vertices.length / 6 :=
  index_in_bounds.2 quadAttrib quadShapes 5 (by decide)

/-! ### Claim theorems: transform pipeline -/

/-- Claim C4: each frame the Model matrix is built as identity, then the
fixed +90° rotation about X, then the translation by the current
position, then the yaw rotation, composed in exactly that order (glm
post-multiplies); consequently at translation `(0,0,0)` and yaw `0` the
Model matrix equals the fixed +90°-about-X rotation matrix. -/
theorem model_matrix_composition :
    (∀ (pos : Vec3) (c s : ℚ),
        modelMatrix pos c s = rotX90 * translateMat pos * rotZmat c s) ∧
    modelMatrix ⟨0, 0, 0⟩ 1 0 = rotX90 := by
  have h1 : ∀ (pos : Vec3) (c s : ℚ),
      modelMatrix pos c s = rotX90 * translateMat pos * rotZmat c s := by
    intro pos c s
    simp [modelMatrix, glmRotate, glmTranslate]
  refine ⟨h1, ?_⟩
  have hT : translateMat ⟨0, 0, 0⟩ = (1 : M4) := by
    decide
  have hR : rotZmat 1 0 = (1 : M4) := by
    decide
  rw [h1, hT, hR, mul_one, mul_one]

/-- Claim C5: each Game frame the View matrix is a look-at whose eye is
the fixed constant camera offset and whose target is the current model
translation; for non-zero translation the camera looks toward the
translation, not toward the origin. -/
theorem view_targets_translation :
    ∀ pos : Vec3,
      (viewArgs pos).eye = cameraOffset ∧
      (viewArgs pos).center = pos ∧
      (pos ≠ ⟨0, 0, 0⟩ → (viewArgs pos).center ≠ ⟨0, 0, 0⟩) := by
  intro pos
  exact ⟨rfl, rfl, fun h => h⟩

/-- Witness for C5: at translation `(1, 2, 3)` the look-at target is not
the origin. -/
theorem view_targets_translation_witness :
    (viewArgs ⟨1, 2, 3⟩).center ≠ ⟨0, 0, 0⟩ :=
  (view_targets_translation ⟨1, 2, 3⟩).2.2 (by decide)

/-! ### Claim theorem: exit codes -/

/-- Claim C8: the process exits with code 0 exactly on a normal
window-close (all startup steps succeeded), and with code −1 on any
startup failure: GLFW init, window/context creation, GLEW init, or mesh
import. -/
theorem exit_codes :
    ∀ env : StartupEnv,
      (mainExitCode env = 0 ↔
        env.glfwInitOk = true ∧ env.windowOk = true ∧
        env.glewInitOk = true ∧ env.objLoadOk = true) ∧
      ((env.glfwInitOk = false ∨ env.windowOk = false ∨
        env.glewInitOk = false ∨ env.objLoadOk = false) →
        mainExitCode env = -1) := by
  intro env
  obtain ⟨a, b, c, d⟩ := env
  revert a b c d
  decide

/-- Witness for C8: GLFW-init failure alone exits with −1. -/
theorem exit_codes_witness :
    mainExitCode ⟨false, true, true, true⟩ = -1 :=
  (exit_codes ⟨false, true, true, true⟩).2 (Or.inl rfl)

/-! ### Frame-loop lemmas -/

theorem run_cons (L : Nat) (i : FrameIn) (is : List FrameIn) (w : World) :
    run L (i :: is) w = run L is (frame L i w) := rfl

theorem run_append_single (L : Nat) (inputs : List FrameIn) (i : FrameIn) (w : World) :
    run L (inputs ++ [i]) w = frame L i (run L inputs w) := by
  simp [run, List.foldl_append]

theorem processInput_noKeys (w : World) : processInput noKeys w = w := by
  simp [processInput, noKeys]

theorem processInput_fields (k : Keys) (w : World) :
    (processInput k w).gameState = w.gameState ∧
    (processInput k w).rotationY = w.rotationY ∧
    (processInput k w).modelPosition.y = w.modelPosition.y ∧
    (processInput k w).loreLoaded = w.loreLoaded ∧
    (processInput k w).charIndex = w.charIndex ∧
    (processInput k w).timeAccumulator = w.timeAccumulator := by
  simp only [processInput]
  split_ifs <;> simp

theorem renderPhase_fields (e : ℚ) (ok : Bool) (L : Nat) (w : World) :
    (renderPhase e ok L w).gameState = w.gameState ∧
    (renderPhase e ok L w).rotationY = w.rotationY ∧
    (renderPhase e ok L w).modelPosition = w.modelPosition ∧
    w.charIndex ≤ (renderPhase e ok L w).charIndex := by
  simp only [renderPhase]
  split_ifs <;> simp

theorem frame_gameState (L : Nat) (i : FrameIn) (w : World) :
    (frame L i w).gameState = w.gameState := by
  have h1 := (processInput_fields i.keys w).1
  have h2 := (renderPhase_fields i.elapsed i.loreFileOk L (processInput i.keys w)).1
  rw [frame, h2, h1]

theorem frame_y_yaw (L : Nat) (i : FrameIn) (w : World) :
    (frame L i w).modelPosition.y = w.modelPosition.y ∧
    (frame L i w).rotationY = w.rotationY := by
  obtain ⟨-, hr1, hy1, -, -, -⟩ := processInput_fields i.keys w
  obtain ⟨-, hr2, hp2, -⟩ := renderPhase_fields i.elapsed i.loreFileOk L (processInput i.keys w)
  constructor
  · rw [frame, hp2, hy1]
  · rw [frame, hr2, hr1]

theorem frame_charIndex_mono (L : Nat) (i : FrameIn) (w : World) :
    w.charIndex ≤ (frame L i w).charIndex := by
  have h1 := (processInput_fields i.keys w).2.2.2.2.1
  have h2 := (renderPhase_fields i.elapsed i.loreFileOk L (processInput i.keys w)).2.2.2
  rw [frame]
  omega

theorem run_y_yaw (L : Nat) (inputs : List FrameIn) (w : World) :
    (run L inputs w).modelPosition.y = w.modelPosition.y ∧
    (run L inputs w).rotationY = w.rotationY := by
  induction inputs generalizing w with
  | nil => exact ⟨rfl, rfl⟩
  | cons i is ih =>
      obtain ⟨hy, hr⟩ := frame_y_yaw L i w
      obtain ⟨hy', hr'⟩ := ih (frame L i w)
      rw [run_cons]
      exact ⟨by rw [hy', hy], by rw [hr', hr]⟩

theorem frame_cadence (L : Nat) (w : World) :
    frame L cadenceFrame w = renderPhase charDisplayInterval true L w := by
  show renderPhase charDisplayInterval true L (processInput noKeys w) = _
  rw [processInput_noKeys]

theorem renderPhase_lore (e : ℚ) (ok : Bool) (L : Nat) (p : Vec3) (r : ℚ) (c : Bool)
    (ld : Bool) (ci : Nat) (ta : ℚ) :
    renderPhase e ok L ⟨GameState.Lore_Screen, p, r, c, ld, ci, ta⟩ =
      if ld = false ∧ ok = false then
        ⟨GameState.Lore_Screen, p, r, true, ld, ci, ta⟩
      else if charDisplayInterval ≤ ta + e ∧ ci < L then
        ⟨GameState.Lore_Screen, p, r, c, true, ci + 1, 0⟩
      else
        ⟨GameState.Lore_Screen, p, r, c, true, ci, ta + e⟩ := rfl

/-- State of the frame loop after `n` frames at the exact reveal cadence:
`min n L` characters revealed, and once the text is exhausted the
accumulator grows by one interval per frame. -/
theorem lore_cadence_state (L n : Nat) :
    run L (List.replicate n cadenceFrame) initWorld =
      ⟨GameState.Lore_Screen, ⟨0, 0, 0⟩, 0, false, decide (0 < n), min n L,
        ((n - min n L : Nat) : ℚ) * charDisplayInterval⟩ := by
  induction n with
  | zero =>
      simp [run, initWorld, World.mk.injEq]
  | succ n ih =>
      rw [List.replicate_succ' n cadenceFrame, run_append_single, ih, frame_cadence,
        renderPhase_lore]
      rw [if_neg (by simp)]
      have hd : decide (0 < n + 1) = true := decide_eq_true (Nat.succ_pos n)
      rcases Nat.lt_or_ge n L with hn | hn
      · have hmin : min n L = n := min_eq_left hn.le
        have hmin' : min (n + 1) L = n + 1 := min_eq_left hn
        rw [if_pos ⟨by rw [hmin, Nat.sub_self]; simp, by rw [hmin]; exact hn⟩]
        rw [hd, hmin, hmin', Nat.sub_self]
        simp
      · have hmin : min n L = L := min_eq_right hn
        have hmin' : min (n + 1) L = L := min_eq_right (le_trans hn (Nat.le_succ n))
        rw [if_neg (by rw [hmin]; exact fun h => absurd h.2 (lt_irrefl L))]
        rw [hd, hmin, hmin']
        simp only [World.mk.injEq, true_and]
        rw [Nat.cast_sub hn, Nat.cast_sub (le_trans hn (Nat.le_succ n))]
        push_cast
        ring

theorem frame_time_bound (L : Nat) (i : FrameIn) (w : World)
    (ha : 0 ≤ w.timeAccumulator) (he : 0 ≤ i.elapsed) :
    ((frame L i w).charIndex : ℚ) * charDisplayInterval + (frame L i w).timeAccumulator ≤
      (w.charIndex : ℚ) * charDisplayInterval + w.timeAccumulator + i.elapsed ∧
    0 ≤ (frame L i w).timeAccumulator := by
  obtain ⟨-, -, -, -, hc, ht⟩ := processInput_fields i.keys w
  rw [frame]
  set w' := processInput i.keys w with hw'
  simp only [renderPhase]
  split_ifs with h1 h2 h3
  · constructor
    · simp only [hc, ht]
      linarith
    · simpa [ht] using ha
  · simp only [] at h3
    rw [ht] at h3
    constructor
    · push_cast
      simp only [hc]
      rw [hc] at h3
      linarith [h3.1]
    · norm_num
  · constructor
    · simp only [hc, ht]
      linarith
    · show (0 : ℚ) ≤ w'.timeAccumulator + i.elapsed
      rw [ht]
      linarith
  · constructor
    · simp only [hc, ht]
      linarith
    · show (0 : ℚ) ≤ w'.timeAccumulator
      rw [ht]
      exact ha

theorem totalElapsed_cons (i : FrameIn) (is : List FrameIn) :
    totalElapsed (i :: is) = i.elapsed + totalElapsed is := by
  simp [totalElapsed]

theorem run_time_bound (L : Nat) (inputs : List FrameIn) (w : World)
    (ha : 0 ≤ w.timeAccumulator) (he : ∀ i ∈ inputs, 0 ≤ i.elapsed) :
    ((run L inputs w).charIndex : ℚ) * charDisplayInterval +
        (run L inputs w).timeAccumulator ≤
      (w.charIndex : ℚ) * charDisplayInterval + w.timeAccumulator +
        totalElapsed inputs ∧
    0 ≤ (run L inputs w).timeAccumulator := by
  induction inputs generalizing w with
  | nil =>
      constructor
      · simp [run, totalElapsed]
      · exact ha
  | cons i is ih =>
      have hfe := frame_time_bound L i w ha (he i (List.mem_cons_self i is))
      have hrec := ih (frame L i w) hfe.2 (fun j hj => he j (List.mem_cons_of_mem i hj))
      rw [run_cons, totalElapsed_cons]
      constructor
      · linarith [hrec.1, hfe.1]
      · exact hrec.2

/-! ### Claim theorems: screen state machine and frame loop -/

/-- Claim C2 (code bug): the transition function `handleInput` does send
Start/Lore to Game on an Enter press and keeps Game under any further
input — but `handleInput` is never called from the main loop, whose input
step `processInput` leaves `gameState` untouched, so one frame in Lore
with Enter pressed actually stays in Lore. -/
theorem screen_transition_bug :
    handleInput enterKeys GameState.Lore_Screen = GameState.Game_Screen ∧
    handleInput enterKeys GameState.Start_Screen = GameState.Game_Screen ∧
    (∀ k : Keys, handleInput k GameState.Game_Screen = GameState.Game_Screen) ∧
    (∀ (L : Nat) (i : FrameIn) (w : World), (frame L i w).gameState = w.gameState) ∧
    (frame 5 ⟨enterKeys, 0, true⟩ initWorld).gameState = GameState.Lore_Screen := by
  refine ⟨rfl, rfl, fun k => ?_, fun L i w => frame_gameState L i w, ?_⟩
  · unfold handleInput
    split_ifs <;> rfl
  · rw [frame_gameState]
    rfl

/-- Claim C3 corrected: the reveal logic cannot reach
`min(L, ⌊t/Δ⌋)` in general — at most one character is revealed per frame
and the accumulator resets, so the formula holds only at the exact
per-character cadence; `⌊t/Δ⌋` is an upper bound, and the revealed count
is monotonically non-decreasing. -/
theorem lore_reveal_amended :
    (∀ L n : Nat,
      (run L (List.replicate n cadenceFrame) initWorld).charIndex = min n L) ∧
    (∀ (L : Nat) (i : FrameIn) (w : World), w.charIndex ≤ (frame L i w).charIndex) ∧
    (∀ (L : Nat) (inputs : List FrameIn), (∀ i ∈ inputs, 0 ≤ i.elapsed) →
      ((run L inputs initWorld).charIndex : ℤ) ≤
        ⌊totalElapsed inputs / charDisplayInterval⌋) := by
  refine ⟨fun L n => ?_, fun L i w => frame_charIndex_mono L i w, fun L inputs he => ?_⟩
  · rw [lore_cadence_state]
  · have hb := run_time_bound L inputs initWorld (le_refl 0) he
    rw [Int.le_floor]
    have hpos : (0 : ℚ) < charDisplayInterval := by
      norm_num [charDisplayInterval]
    push_cast
    rw [le_div_iff₀ hpos]
    have h1 := hb.1
    have h2 := hb.2
    have hci : initWorld.charIndex = 0 := rfl
    have hta : initWorld.timeAccumulator = 0 := rfl
    rw [hci, hta] at h1
    norm_num at h1
    linarith

/-- Witness for C3's amended theorem: a single non-negative-elapsed frame
respects the `⌊t/Δ⌋` bound. -/
theorem lore_reveal_amended_witness :
    ((run 5 [⟨noKeys, 1 / 10, true⟩] initWorld).charIndex : ℤ) ≤
      ⌊totalElapsed [⟨noKeys, 1 / 10, true⟩] / charDisplayInterval⌋ :=
  lore_reveal_amended.2.2 5 [⟨noKeys, 1 / 10, true⟩]
    (by
      rintro i hi
      simp only [List.mem_singleton] at hi
      subst hi
      norm_num)

/-- Counterexample for C3 as stated: one frame of elapsed time `2Δ` (with
`L = 2`) reveals only one character, while `min(L, ⌊t/Δ⌋) = 2`. -/
theorem lore_reveal_counterexample :
    (run 2 [⟨noKeys, 1 / 10, true⟩] initWorld).charIndex = 1 ∧
    min 2 (Int.toNat ⌊totalElapsed [⟨noKeys, 1 / 10, true⟩] / charDisplayInterval⌋) = 2 := by
  constructor
  · rw [show (run 2 [⟨noKeys, 1 / 10, true⟩] initWorld) =
        frame 2 ⟨noKeys, 1 / 10, true⟩ initWorld from rfl]
    rw [show frame 2 ⟨noKeys, 1 / 10, true⟩ initWorld =
        renderPhase (1 / 10) true 2 (processInput noKeys initWorld) from rfl]
    rw [processInput_noKeys]
    rw [show (initWorld : World) =
        ⟨GameState.Lore_Screen, ⟨0, 0, 0⟩, 0, false, false, 0, 0⟩ from rfl]
    rw [renderPhase_lore]
    rw [if_neg (by simp)]
    rw [if_pos (by norm_num [charDisplayInterval])]
  · have ht : totalElapsed [(⟨noKeys, 1 / 10, true⟩ : FrameIn)] = 1 / 10 := by
      simp [totalElapsed]
    rw [ht]
    have hq : (1 : ℚ) / 10 / charDisplayInterval = 2 := by
      norm_num [charDisplayInterval]
    rw [hq]
    norm_num

/-- Claim C10: throughout any run of the final variant, the `y` component
of the model translation and the yaw angle stay at their initial value 0:
input only moves `x`/`z` and nothing in the frame loop writes the yaw. -/
theorem yaw_and_y_invariant :
    ∀ (L : Nat) (inputs : List FrameIn),
      (run L inputs initWorld).modelPosition.y = 0 ∧
      (run L inputs initWorld).rotationY = 0 := by
  intro L inputs
  obtain ⟨hy, hr⟩ := run_y_yaw L inputs initWorld
  exact ⟨by rw [hy]; rfl, by rw [hr]; rfl⟩

/-! ### Upload-trace lemmas and claim theorems -/

theorem frameUploads_mem (gs : GameState) (n : Nat) (e : UploadEvent)
    (h : e ∈ frameUploads gs n) :
    e = ⟨BufferId.quadVBO, UploadKind.bufferSubData⟩ := by
  cases gs <;> simp [frameUploads, List.mem_replicate] at h
  exact h.2

theorem uploadsTo_append (b : BufferId) (l1 l2 : List UploadEvent) :
    uploadsTo b (l1 ++ l2) = uploadsTo b l1 + uploadsTo b l2 := by
  simp [uploadsTo, List.filter_append]

theorem uploadsTo_frameUploads (b : BufferId) (hb : b ≠ BufferId.quadVBO)
    (gs : GameState) (n : Nat) : uploadsTo b (frameUploads gs n) = 0 := by
  cases gs <;> simp [frameUploads, uploadsTo]
  intro _
  exact fun h => hb h.symm

theorem uploadsTo_frames_zero (b : BufferId) (hb : b ≠ BufferId.quadVBO)
    (frames : List (GameState × Nat)) :
    uploadsTo b (frames.flatMap (fun p => frameUploads p.1 p.2)) = 0 := by
  induction frames with
  | nil => rfl
  | cons p ps ih =>
      rw [List.flatMap_cons, uploadsTo_append, ih, uploadsTo_frameUploads b hb p.1 p.2]

theorem uploadsTo_setup (b : BufferId) (hb : b ≠ BufferId.quadVBO) :
    uploadsTo b setupUploads = 1 := by
  cases b
  · rfl
  · rfl
  · rfl
  · exact absurd rfl hb

/-- Claim C9 corrected: the mesh vertex/index buffers and the axis-gizmo
buffer are uploaded exactly once at creation and never written again, but
the screen-quad buffer is overwritten (`glBufferSubData`) once per glyph
drawn during the Lore screen; every post-setup upload event is such a
quad overwrite. -/
theorem buffer_upload_amended :
    ∀ frames : List (GameState × Nat),
      (∀ b : BufferId, b ≠ BufferId.quadVBO → uploadsTo b (runUploads frames) = 1) ∧
      (∀ e ∈ frames.flatMap (fun p => frameUploads p.1 p.2),
        e = ⟨BufferId.quadVBO, UploadKind.bufferSubData⟩) := by
  intro frames
  constructor
  · intro b hb
    rw [runUploads, uploadsTo_append, uploadsTo_setup b hb, uploadsTo_frames_zero b hb]
  · intro e he
    rw [List.mem_flatMap] at he
    obtain ⟨p, hp, hme⟩ := he
    exact frameUploads_mem p.1 p.2 e hme

/-- Witness for C9's amended theorem: in a run with one Lore frame that
draws one glyph, the mesh vertex buffer is uploaded exactly once. -/
theorem buffer_upload_amended_witness :
    uploadsTo BufferId.meshVBO (runUploads [(GameState.Lore_Screen, 1)]) = 1 :=
  (buffer_upload_amended [(GameState.Lore_Screen, 1)]).1 BufferId.meshVBO (by decide)

/-- Counterexample for C9 as stated: in a run with one Lore frame drawing
one glyph, the screen-quad buffer receives two upload calls — the
creation-time copy and a later buffer-subdata overwrite — so its contents
are not copied exactly once and left untouched. -/
theorem quad_buffer_rewritten :
    uploadsTo BufferId.quadVBO (runUploads [(GameState.Lore_Screen, 1)]) = 2 ∧
    (runUploads [(GameState.Lore_Screen, 1)]).drop 4 =
      [⟨BufferId.quadVBO, UploadKind.bufferSubData⟩] := by
  constructor
  · rfl
  · rfl

end Raumschiff
